import Mathlib

/-!
Verification of the nntrainer memory-manager / layer-node core.

The definitions below are a shallow embedding of the C++ sources:
  * `src/nntrainer/tensor/manager.h` (class `Manager`, including the inline
    `manager.cpp` bodies: `trackWeight`, `trackWeights`, `initialize`,
    `TrackLayerInOuts`, `untrackLayerInOuts`, `initializeInOuts`,
    `setBatchSize`, `reset`),
  * `src/nntrainer/tensor/var_grad.cpp` (the `Var_Grad` constructor),
  * `src/nntrainer/layers/layer_node.cpp` (`LayerNode::setProperty`),
  * `src/unnamed/part_003` (`InputLayer::calcDerivative`).
Leaf classes whose definitions are not part of the sources (the `Tensor`
allocation primitives, `Weight`/`Var_Grad` initialization, the property-string
helpers) are modelled from the specification; each such definition carries a
doc comment starting with `Modelled from the spec:`.
-/

namespace NNT

/-- Rank-4 tensor dimension (batch, channel, height, width), as `TensorDim`. -/
structure TensorDim where
  batch : Nat
  channel : Nat
  height : Nat
  width : Nat
deriving DecidableEq

/-- `TensorDim::getDataLen()`: total element count of the dimension. -/
def TensorDim.getDataLen (d : TensorDim) : Nat :=
  d.batch * d.channel * d.height * d.width

/-- `TensorDim::batch(b)` as a functional update of the batch entry. -/
def TensorDim.setBatch (d : TensorDim) (b : Nat) : TensorDim :=
  { d with batch := b }

/-- Modelled from the spec: a Tensor's allocation state (§3) is unallocated
(`Tensor()`), an owned private allocation described by its shape
(`Tensor(dim)`), a contiguous 1-D arena of a given element count
(`Tensor(max_weight_size)`), or an alias into a parent buffer at an element
offset (result of `getSharedDataTensor`).  The parent's size is carried so
that the aliased region is fully described. -/
inductive Tensor where
  | empty : Tensor
  | owned (dim : TensorDim) : Tensor
  | arena (size : Nat) : Tensor
  | alias (parentSize : Nat) (offset : Nat) (dim : TensorDim) : Tensor
deriving DecidableEq

/-- Element count held by a tensor (arena: its size; owned/alias: the shape's
data length; unallocated: 0). -/
def Tensor.size : Tensor → Nat
  | .empty => 0
  | .owned d => d.getDataLen
  | .arena n => n
  | .alias _ _ d => d.getDataLen

/-- Modelled from the spec: `Tensor::getSharedDataTensor(dim, offset)` returns
an aliasing tensor over the parent's storage at the given element offset with
the given shape (§4.1 `createShared`). -/
def Tensor.getSharedDataTensor (t : Tensor) (dim : TensorDim) (offset : Nat) : Tensor :=
  .alias t.size offset dim

/-- Modelled from the spec: batch-dimension rewrite of a tensor is a pure
dimension-metadata update (§4.2); arenas and unallocated tensors carry no
rank-4 shape and are unchanged. -/
def Tensor.setBatch (t : Tensor) (b : Nat) : Tensor :=
  match t with
  | .empty => .empty
  | .owned d => .owned (d.setBatch b)
  | .arena n => .arena n
  | .alias p o d => .alias p o (d.setBatch b)

/-- The set of arena element indices covered by an aliasing tensor
(`[offset, offset + getDataLen)`); empty for non-aliasing tensors. -/
def Tensor.aliasIndices : Tensor → Finset Nat
  | .alias _ off d => Finset.Ico off (off + d.getDataLen)
  | _ => ∅

/-- A `Weight`: dimension, trainable flag and (after initialization) its bound
gradient tensor.  The initializer tag is irrelevant to the claims and omitted;
`grad` is the canonical empty sentinel before `initialize` runs. -/
structure Weight where
  dim : TensorDim
  trainable : Bool
  grad : Tensor
deriving DecidableEq

/-- `Weight::getTrainable()`. -/
def Weight.getTrainable (w : Weight) : Bool := w.trainable

/-- `Weight::getDim()`. -/
def Weight.getDim (w : Weight) : TensorDim := w.dim

/-- Modelled from the spec: `Weight::initialize(gradTensor)` binds an
already-allocated (possibly aliased) gradient tensor (§4.2). -/
def Weight.initializeWith (w : Weight) (g : Tensor) : Weight :=
  { w with grad := g }

/-- Modelled from the spec: `Weight::initialize()` without a shared tensor
gives a trainable weight a private gradient allocation sized exactly to its
own shape; a non-trainable weight never materializes a gradient (§3, §4.3). -/
def Weight.initializePrivate (w : Weight) : Weight :=
  { w with grad := if w.trainable then Tensor.owned w.dim else Tensor.empty }

/-- A `Var_Grad`: value/gradient tensor pair with its dimension, trainable
flag and generated name. -/
structure VarGrad where
  dim : TensorDim
  trainable : Bool
  name : String
  var : Tensor
  grad : Tensor
deriving DecidableEq

/-- The `Var_Grad(dim, train, name)` constructor from `var_grad.cpp`: the
value tensor is always allocated to `dim`; the gradient tensor is allocated
to `dim` only when trainable, else it stays the empty sentinel. -/
def VarGrad.make (dim : TensorDim) (train : Bool) (name : String) : VarGrad :=
  { dim := dim, trainable := train, name := name,
    var := Tensor.owned dim,
    grad := if train then Tensor.owned dim else Tensor.empty }

/-- `Var_Grad::getDim()`. -/
def VarGrad.getDim (vg : VarGrad) : TensorDim := vg.dim

/-- `Var_Grad::getTrainable()`. -/
def VarGrad.getTrainable (vg : VarGrad) : Bool := vg.trainable

/-- `Var_Grad::getName()`. -/
def VarGrad.getName (vg : VarGrad) : String := vg.name

/-- Modelled from the spec: `Var_Grad::initialize(preallocated, gtrain)` binds
an already-allocated (possibly aliased) derivative tensor when `gtrain` holds
("If true, initialize derivates, else, do not"); when handed the default empty
tensor, a trainable pair keeps a private gradient allocation sized exactly to
its own shape (§4.2, §4.3).  When `gtrain` is false the derivative is not
initialized and stays the empty sentinel. -/
def VarGrad.initializeWith (vg : VarGrad) (preallocated : Tensor) (gtrain : Bool) : VarGrad :=
  if gtrain then
    if preallocated = Tensor.empty then
      { vg with grad := if vg.trainable then Tensor.owned vg.dim else Tensor.empty }
    else
      { vg with grad := preallocated }
  else
    { vg with grad := Tensor.empty }

/-- Modelled from the spec: `Var_Grad::setBatchSize(b)` rewrites the batch
dimension of both tensors in place; only dimension metadata is updated
(§4.2). -/
def VarGrad.setBatchSize (vg : VarGrad) (b : Nat) : VarGrad :=
  { vg with dim := vg.dim.setBatch b,
            var := vg.var.setBatch b,
            grad := vg.grad.setBatch b }

/-- The `Manager` state (`manager.h`): per-node tracked weights, per-node
tracked input/output pairs, the two running maxima and the two optimization
flags. -/
structure Manager where
  weights : List (List Weight)
  in_outs : List (List VarGrad)
  max_weight_size : Nat
  max_derivative_size : Nat
  enable_gradient_memory_opt : Bool
  enable_derivative_memory_opt : Bool
deriving DecidableEq

/-- The `Manager()` constructor: empty tracking lists, zero maxima, both
optimizations enabled. -/
def Manager.new : Manager :=
  { weights := [], in_outs := [],
    max_weight_size := 0, max_derivative_size := 0,
    enable_gradient_memory_opt := true,
    enable_derivative_memory_opt := true }

/-- `Manager::trackWeight(w)`: wraps the single weight in a singleton vector
and appends it; nothing else is touched. -/
def Manager.trackWeight (m : Manager) (w : Weight) : Manager :=
  { m with weights := m.weights ++ [[w]] }

/-- The `weight_size` accumulation loop of `Manager::trackWeights`: sum of
`getDim().getDataLen()` over the trainable weights of one node. -/
def trainableWeightSize (ws : List Weight) : Nat :=
  ws.foldl (fun acc w => if w.getTrainable then acc + w.getDim.getDataLen else acc) 0

/-- `Manager::trackWeights(ws)`: appends the node's weight list and raises
`max_weight_size` to the node's trainable-weight element count if larger. -/
def Manager.trackWeights (m : Manager) (ws : List Weight) : Manager :=
  { m with weights := m.weights ++ [ws],
           max_weight_size := Nat.max m.max_weight_size (trainableWeightSize ws) }

/-- The `shared_grad` local of `Manager::initialize()`: a contiguous buffer of
`max_weight_size` elements when positive and the gradient optimization is on,
else the default-constructed empty tensor. -/
def Manager.sharedGrad (m : Manager) : Tensor :=
  if m.max_weight_size > 0 && m.enable_gradient_memory_opt then
    Tensor.arena m.max_weight_size
  else Tensor.empty

/-- The inner loop of `Manager::initialize()` over one node's weights: the
running `offset` starts at the caller's value (0 per node); each trainable
weight (with the optimization on) is bound to an alias of the shared buffer at
the current offset, which then advances by that weight's element count; any
other weight gets a private initialization and leaves the offset unchanged. -/
def initNodeWeights (shared : Tensor) (opt : Bool) : List Weight → Nat → List Weight
  | [], _ => []
  | w :: ws, offset =>
    if w.getTrainable && opt then
      w.initializeWith (shared.getSharedDataTensor w.getDim offset) ::
        initNodeWeights shared opt ws (offset + w.getDim.getDataLen)
    else
      w.initializePrivate :: initNodeWeights shared opt ws offset

/-- `Manager::initialize()`: allocates the shared gradient buffer and walks
the nodes in order, resetting the aliasing offset to zero at the start of each
node. -/
def Manager.initializeWeights (m : Manager) : Manager :=
  { m with weights :=
      m.weights.map (fun l_w => initNodeWeights m.sharedGrad m.enable_gradient_memory_opt l_w 0) }

/-- `Manager::reset()`: clears the tracked weights and in/outs and zeroes
`max_weight_size`.  (`max_derivative_size` is not touched by the source.) -/
def Manager.reset (m : Manager) : Manager :=
  { m with weights := [], in_outs := [], max_weight_size := 0 }

/-- The `inout_derivative_size` accumulation loop of
`Manager::TrackLayerInOuts`. -/
def trainableInOutSize (input_dim : List TensorDim) (trainable : Bool) : Nat :=
  input_dim.foldl (fun acc dim => if trainable then acc + dim.getDataLen else acc) 0

/-- `Manager::TrackLayerInOuts(layer_name, input_dim, trainable)`: creates one
`Var_Grad` per dimension named `layer_name ++ ":InOut" ++ cnt` with `cnt`
counting from 0, appends the list, and raises `max_derivative_size` to the
node's trainable element count if larger. -/
def Manager.TrackLayerInOuts (m : Manager) (layer_name : String)
    (input_dim : List TensorDim) (trainable : Bool) : Manager :=
  let base_name := layer_name ++ ":InOut"
  let in_out := input_dim.enum.map (fun p => VarGrad.make p.2 trainable (base_name ++ toString p.1))
  { m with in_outs := m.in_outs ++ [in_out],
           max_derivative_size :=
             Nat.max m.max_derivative_size (trainableInOutSize input_dim trainable) }

/-- The erase-first-match loop of `Manager::untrackLayerInOuts`: removes the
first tracked entry that is non-empty and whose first pair is named
`var_name`, then stops; entries that do not match are kept. -/
def untrackFirst (var_name : String) : List (List VarGrad) → List (List VarGrad)
  | [] => []
  | l :: ls =>
    match l with
    | [] => [] :: untrackFirst var_name ls
    | v :: vs => if v.getName = var_name then ls else (v :: vs) :: untrackFirst var_name ls

/-- `Manager::untrackLayerInOuts(layer_name)`: builds the first generated
sub-tensor name and erases the first matching entry, if any. -/
def Manager.untrackLayerInOuts (m : Manager) (layer_name : String) : Manager :=
  let var_name := layer_name ++ ":InOut" ++ toString (0 : Nat)
  { m with in_outs := untrackFirst var_name m.in_outs }

/-- Whether some tracked entry's first pair carries the given name (the match
condition of `untrackLayerInOuts`). -/
def Manager.tracksFirstName (m : Manager) (nm : String) : Bool :=
  m.in_outs.any (fun l =>
    match l with
    | [] => false
    | v :: _ => v.getName == nm)

/-- The `shared_deriv` local of `Manager::initializeInOuts`: a contiguous
buffer of `max_derivative_size` elements when positive and the derivative
optimization is on, else the default-constructed empty tensor. -/
def Manager.sharedDeriv (m : Manager) : Tensor :=
  if m.max_derivative_size > 0 && m.enable_derivative_memory_opt then
    Tensor.arena m.max_derivative_size
  else Tensor.empty

/-- The inner loop of `Manager::initializeInOuts` over one node's pairs: a
trainable pair (with the optimization on) is bound to an alias of the shared
buffer at the current offset, which then advances by the pair's element count
times the boolean `trainable` argument (`offset += getDataLen() * trainable`);
any other pair is initialized with the empty tensor and leaves the offset
unchanged. -/
def initNodeInOuts (shared : Tensor) (opt trainable : Bool) : List VarGrad → Nat → List VarGrad
  | [], _ => []
  | io :: ios, offset =>
    if io.getTrainable && opt then
      io.initializeWith (shared.getSharedDataTensor io.getDim offset) trainable ::
        initNodeInOuts shared opt trainable ios
          (offset + io.getDim.getDataLen * (if trainable then 1 else 0))
    else
      io.initializeWith Tensor.empty trainable :: initNodeInOuts shared opt trainable ios offset

/-- `Manager::initializeInOuts(trainable)`: allocates the shared derivative
buffer and walks the tracked nodes in order, resetting the aliasing offset to
zero at the start of each node. -/
def Manager.initializeInOuts (m : Manager) (trainable : Bool) : Manager :=
  { m with in_outs :=
      m.in_outs.map (fun l_io =>
        initNodeInOuts m.sharedDeriv m.enable_derivative_memory_opt trainable l_io 0) }

/-- `Manager::setBatchSize(batch)`: when the first tracked entry exists and is
non-empty, `max_derivative_size` is divided by that entry's first pair's batch
and multiplied by the new batch; then the new batch size is propagated to
every tracked pair. -/
def Manager.setBatchSize (m : Manager) (batch : Nat) : Manager :=
  let max_d :=
    match m.in_outs with
    | (vg :: _) :: _ => m.max_derivative_size / vg.getDim.batch * batch
    | _ => m.max_derivative_size
  { m with max_derivative_size := max_d,
           in_outs := m.in_outs.map (fun in_out => in_out.map (fun vg => vg.setBatchSize batch)) }

/-! ## Layer node: `LayerNode::setProperty` (`layer_node.cpp`) -/

/-- The error codes observable from `LayerNode::setProperty`:
`ML_ERROR_NONE` and `ML_ERROR_INVALID_PARAMETER`. -/
inductive ErrorCode where
  | ok : ErrorCode
  | invalidParameter : ErrorCode
deriving DecidableEq

/-- The fields of a `LayerNode` that its `setProperty` paths touch: the
`props::Name` and `props::Trainable` entries, the `flatten` and `distribute`
flags, the connection name lists and the input dimensions.  (The wrapped
layer object itself is outside the modelled core.) -/
structure LayerNode where
  name : String
  trainable : Bool
  flatten : Bool
  distribute : Bool
  input_layers : List String
  output_layers : List String
  input_dim : List TensorDim
deriving DecidableEq

/-- The property keys dispatched by the `LayerNode::setProperty` switch; every
other key falls into the `default:` (unknown) case. -/
inductive PropertyType where
  | input_shape | name | flatten | distribute | input_layers | output_layers | unknown
deriving DecidableEq

/-- Splits a character list at the first occurrence of `sep`; `none` when the
separator does not occur. -/
def splitAtChar (sep : Char) : List Char → Option (List Char × List Char)
  | [] => none
  | c :: rest =>
    if c = sep then some ([], rest)
    else
      match splitAtChar sep rest with
      | none => none
      | some kv => some (c :: kv.1, kv.2)

/-- Splits a character list on every occurrence of `sep`. -/
def splitOnChar (sep : Char) : List Char → List (List Char)
  | [] => [[]]
  | c :: rest =>
    let r := splitOnChar sep rest
    if c = sep then [] :: r
    else
      match r with
      | [] => [[c]]
      | h :: t => (c :: h) :: t

/-- Reads a non-empty all-digit character list as a decimal number. -/
def natOfDigits : List Char → Option Nat
  | [] => none
  | cs =>
    cs.foldl (fun acc c =>
      match acc with
      | none => none
      | some n => if c.isDigit then some (n * 10 + (c.toNat - 48)) else none) (some 0)

/-- Modelled from the spec: property strings are `key=value` pairs (§6);
`getKeyValue` splits at the first `=` and fails when there is none. -/
def getKeyValue (s : String) : Option (String × String) :=
  match splitAtChar '=' s.data with
  | none => none
  | some kv => some (⟨kv.1⟩, ⟨kv.2⟩)

/-- Modelled from the spec: `parseLayerProperty` resolves a key against the
per-node property schema (§6); keys outside the schema map to the unknown
sentinel handled by the switch's `default:` case. -/
def parseLayerProperty (key : String) : PropertyType :=
  if key = "input_shape" then .input_shape
  else if key = "name" then .name
  else if key = "flatten" then .flatten
  else if key = "distribute" then .distribute
  else if key = "input_layers" then .input_layers
  else if key = "output_layers" then .output_layers
  else .unknown

/-- Modelled from the spec: `setBoolean` accepts exactly `true`/`false` and
reports an invalid argument otherwise (§7). -/
def setBoolean (v : String) : Option Bool :=
  if v = "true" then some true else if v = "false" then some false else none

/-- Modelled from the spec: the shape-string parse behind
`TensorDim::setTensorDim(value)` reads a rank-4 `:`-separated dimension (§3);
malformed strings report an invalid argument.  (Property-string parsing is
outside the specified core; only its success/failure shape matters here.) -/
def parseTensorDimStr (s : String) : Option TensorDim :=
  match (splitOnChar ':' s.data).mapM natOfDigits with
  | some [a, b, c, d] => some ⟨a, b, c, d⟩
  | _ => none

/-- Modelled from the spec: the comma split (`std::regex "\\,+"`) used for the
`input_layers`/`output_layers` values; runs of commas separate names and empty
tokens are dropped. -/
def splitLayers (s : String) : List String :=
  ((splitOnChar ',' s.data).map (fun cs => (⟨cs⟩ : String))).filter (fun t => t ≠ "")

/-- One case of the `LayerNode::setProperty(PropertyType, value)` switch.
Returns the (possibly mutated) node and whether the case threw: C++ member
mutations performed before a throw persist, so the thrown-flag is carried next
to the state.  The `input_shape` case caches the old batch around the parse,
restores it afterwards, and always ends in a throw (the source's
deliberate `Setting input_dim for LayerV1 as well` throw); the `distribute`
case records the flag (the `TimeDistLayer` wrapping concerns the layer object,
which is outside the modelled state). -/
def LayerNode.setTypedProperty (node : LayerNode) (ty : PropertyType) (value : String) :
    LayerNode × Bool :=
  match ty with
  | .input_shape =>
    if node.input_dim.length > 1 then (node, true)
    else
      let node := if node.input_dim.length = 0 then { node with input_dim := [⟨0, 0, 0, 0⟩] } else node
      if value ≠ "" then
        match node.input_dim with
        | [] => (node, true)
        | in_dim :: rest0 =>
          let cache_batch_size := if in_dim.batch ≠ 0 then in_dim.batch else 1
          match parseTensorDimStr value with
          | none => (node, true)
          | some parsed => ({ node with input_dim := parsed.setBatch cache_batch_size :: rest0 }, true)
      else (node, true)
  | .name =>
    if value ≠ "" then ({ node with name := value }, false) else (node, false)
  | .flatten =>
    if value ≠ "" then
      match setBoolean value with
      | some b => ({ node with flatten := b }, false)
      | none => (node, true)
    else (node, false)
  | .distribute =>
    if value ≠ "" then
      match setBoolean value with
      | some b => ({ node with distribute := b }, false)
      | none => (node, true)
    else (node, false)
  | .input_layers =>
    if value ≠ "" then ({ node with input_layers := splitLayers value }, false)
    else (node, false)
  | .output_layers =>
    if value ≠ "" then ({ node with output_layers := splitLayers value }, false)
    else (node, false)
  | .unknown => (node, true)

/-- Modelled from the spec: `getLayer()->setProperty(remainder)` passes the
keys the node did not recognize through to the underlying layer implementation
rather than rejecting them outright (§6); the node state is not touched. -/
def layerPassThrough (node : LayerNode) (remainder : List String) : ErrorCode × LayerNode :=
  match remainder with
  | _ => (ErrorCode.ok, node)

/-- Modelled from the spec: `loadProperties` resolves the node-designated
properties (`props::Name`, `props::Trainable`) and returns the remaining
strings untouched (§6); a property it cannot resolve stays in the remainder. -/
def loadProperties : List String → LayerNode → List String × LayerNode
  | [], node => ([], node)
  | p :: ps, node =>
    match getKeyValue p with
    | some kv =>
      if kv.1 = "name" ∧ kv.2 ≠ "" then loadProperties ps { node with name := kv.2 }
      else if kv.1 = "trainable" then
        match setBoolean kv.2 with
        | some b => loadProperties ps { node with trainable := b }
        | none =>
          let r := loadProperties ps node
          (p :: r.1, r.2)
      else
        let r := loadProperties ps node
        (p :: r.1, r.2)
    | none =>
      let r := loadProperties ps node
      (p :: r.1, r.2)

/-- The per-property loop of `int LayerNode::setProperty(vector<string>)`:
`getKeyValue` failure or an empty value returns `ML_ERROR_INVALID_PARAMETER`
immediately with the state accumulated so far; a throwing typed-set keeps the
(possibly mutated) state and pushes the string onto the remainder; at the end
the remainder is handed to the wrapped layer. -/
def LayerNode.setPropLoop : LayerNode → List String → List String → ErrorCode × LayerNode
  | node, [], remainder => layerPassThrough node remainder
  | node, p :: ps, remainder =>
    match getKeyValue p with
    | none => (ErrorCode.invalidParameter, node)
    | some kv =>
      let ty := parseLayerProperty kv.1
      if kv.2 = "" then (ErrorCode.invalidParameter, node)
      else
        match node.setTypedProperty ty kv.2 with
        | (node', true) => LayerNode.setPropLoop node' ps (remainder ++ [p])
        | (node', false) => LayerNode.setPropLoop node' ps remainder

/-- `int LayerNode::setProperty(vector<string> properties)`: first
`loadProperties`, then the per-property loop starting from an empty
remainder. -/
def LayerNode.setProperty (node : LayerNode) (properties : List String) :
    ErrorCode × LayerNode :=
  let lp := loadProperties properties node
  LayerNode.setPropLoop lp.2 lp.1 []

/-! ## Input layer: `InputLayer::calcDerivative` (`src/unnamed/part_003`) -/

/-- The error taxonomy relevant to layer calls (§7): not-supported and
invalid-argument, each with its message. -/
inductive LayerError where
  | notSupported (msg : String) : LayerError
  | invalidArgument (msg : String) : LayerError
deriving DecidableEq

/-- The `InputLayer` state touched by its members: the property flags and the
trainable flag (set false in the constructor). -/
structure InputLayer where
  normalization : Bool
  standardization : Bool
  augmentation : Bool
  trainable : Bool
deriving DecidableEq

/-- `InputLayer::calcDerivative()`: unconditionally throws
`exception::not_supported`; on success it would return the (unchanged) layer
state, but no state is ever produced. -/
def InputLayer.calcDerivative (_l : InputLayer) : Except LayerError InputLayer :=
  Except.error (LayerError.notSupported "calcDerivative for input layer is not supported")

/-! ## Concrete registration scenarios from the specification -/

/-- A fresh trainable weight of `n` elements (shape `1x1x1xn`), gradient not
yet initialized. -/
def mkW (n : Nat) : Weight :=
  { dim := ⟨1, 1, 1, n⟩, trainable := true, grad := Tensor.empty }

/-- Registers a sequence of per-node weight lists on a fresh manager through
`trackWeights`, in order. -/
def trackAll (nodes : List (List Weight)) : Manager :=
  nodes.foldl Manager.trackWeights Manager.new

/-- Scenario A of the spec: nodes with trainable-weight sizes
`[100, 40, 250, 10]`, one weight each. -/
def scenarioANodes : List (List Weight) :=
  [[mkW 100], [mkW 40], [mkW 250], [mkW 10]]

/-- The manager after registering Scenario A. -/
def scenarioAManager : Manager :=
  trackAll scenarioANodes

/-- The shape used by Scenario B: batch 4, channel 1, height 1, width 8. -/
def dimB : TensorDim := ⟨4, 1, 1, 8⟩

/-- Scenario B of the spec: two nodes tracked in execution order with one
`4x1x1x8` trainable in/out pair each, then `initializeInOuts(true)`. -/
def scenarioB : Manager :=
  ((Manager.new.TrackLayerInOuts "node1" [dimB] true).TrackLayerInOuts
      "node2" [dimB] true).initializeInOuts true

/-- Scenario C of the spec: Scenario B followed by `setBatchSize(8)`. -/
def scenarioC : Manager := scenarioB.setBatchSize 8

/-- Node 1's tracked pair after Scenario B: derivative aliased at offset 0 of
the 32-element arena. -/
def vgB1 : VarGrad :=
  { dim := dimB, trainable := true, name := "node1:InOut0",
    var := Tensor.owned dimB, grad := Tensor.alias 32 0 dimB }

/-- Node 2's tracked pair after Scenario B: derivative also aliased at offset
0 of the same 32-element arena. -/
def vgB2 : VarGrad :=
  { dim := dimB, trainable := true, name := "node2:InOut0",
    var := Tensor.owned dimB, grad := Tensor.alias 32 0 dimB }

/-- The batch-8 shape after Scenario C. -/
def dimC : TensorDim := ⟨8, 1, 1, 8⟩

/-- Node 1's tracked pair after Scenario C: same arena, same offset, batch
metadata rewritten to 8. -/
def vgC1 : VarGrad :=
  { dim := dimC, trainable := true, name := "node1:InOut0",
    var := Tensor.owned dimC, grad := Tensor.alias 32 0 dimC }

/-- Node 2's tracked pair after Scenario C. -/
def vgC2 : VarGrad :=
  { dim := dimC, trainable := true, name := "node2:InOut0",
    var := Tensor.owned dimC, grad := Tensor.alias 32 0 dimC }

/-- The concrete node used to refute the all-or-nothing `setProperty` claim:
no name, flatten off. -/
def nodeCE : LayerNode :=
  { name := "", trainable := true, flatten := false, distribute := false,
    input_layers := [], output_layers := [], input_dim := [] }

/-! ## Helper lemmas -/

/-- Shifting the accumulator out of the `trackWeights` size loop. -/
lemma trainableWeightSize_foldl (l : List Weight) (a : Nat) :
    l.foldl (fun acc w => if w.getTrainable then acc + w.getDim.getDataLen else acc) a
      = a + trainableWeightSize l := by
  induction l generalizing a with
  | nil => simp [trainableWeightSize]
  | cons w l ih =>
    simp only [trainableWeightSize, List.foldl_cons]
    rw [ih, ih]
    by_cases hw : w.getTrainable
    all_goals simp [hw]
    all_goals omega

lemma trainableWeightSize_cons (w : Weight) (l : List Weight) :
    trainableWeightSize (w :: l)
      = (if w.getTrainable then w.getDim.getDataLen else 0) + trainableWeightSize l := by
  simp only [trainableWeightSize, List.foldl_cons]
  by_cases hw : w.getTrainable <;> simp [hw, trainableWeightSize_foldl l]

lemma trainableWeightSize_append (l₁ l₂ : List Weight) :
    trainableWeightSize (l₁ ++ l₂) = trainableWeightSize l₁ + trainableWeightSize l₂ := by
  simp only [trainableWeightSize, List.foldl_append]
  exact trainableWeightSize_foldl l₂ _

/-- `max_weight_size` after a sequence of `trackWeights` calls is the running
maximum of the per-node trainable sizes. -/
lemma trackAll_max_weight_size (nodes : List (List Weight)) (m : Manager) :
    (nodes.foldl Manager.trackWeights m).max_weight_size
      = nodes.foldl (fun acc ws => Nat.max acc (trainableWeightSize ws)) m.max_weight_size := by
  induction nodes generalizing m with
  | nil => rfl
  | cons ws nodes ih => simp [List.foldl_cons, ih, Manager.trackWeights]

lemma le_foldl_max (nodes : List (List Weight)) (a : Nat) :
    a ≤ nodes.foldl (fun acc ws => Nat.max acc (trainableWeightSize ws)) a := by
  induction nodes generalizing a with
  | nil => exact Nat.le_refl a
  | cons ws nodes ih =>
    exact Nat.le_trans (Nat.le_max_left a (trainableWeightSize ws)) (ih _)

lemma mem_le_foldl_max (ws : List Weight) :
    ∀ (nodes : List (List Weight)), ws ∈ nodes → ∀ a : Nat,
      trainableWeightSize ws
        ≤ nodes.foldl (fun acc ws => Nat.max acc (trainableWeightSize ws)) a := by
  intro nodes
  induction nodes with
  | nil => intro h; cases h
  | cons ws' nodes ih =>
    intro h a
    rcases List.mem_cons.mp h with rfl | h'
    · exact Nat.le_trans (Nat.le_max_right a (trainableWeightSize ws)) (le_foldl_max nodes _)
    · exact ih h' _

/-- The trainable-weight element count of the first `i` weights of a node:
the aliasing offset `Manager::initialize()` assigns to the weight at index
`i` when it is trainable. -/
def trainableLenBefore (ws : List Weight) (i : Nat) : Nat :=
  trainableWeightSize (ws.take i)

lemma trainableLenBefore_succ (ws : List Weight) (i : Nat) (w : Weight)
    (h : ws[i]? = some w) :
    trainableLenBefore ws (i + 1)
      = trainableLenBefore ws i + (if w.getTrainable then w.getDim.getDataLen else 0) := by
  unfold trainableLenBefore
  rw [List.take_succ, h]
  simp only [Option.toList_some, trainableWeightSize_append]
  rw [trainableWeightSize_cons]
  simp [trainableWeightSize]

lemma trainableLenBefore_le (ws : List Weight) (i j : Nat) (hij : i ≤ j) :
    trainableLenBefore ws i ≤ trainableLenBefore ws j := by
  obtain ⟨k, rfl⟩ := Nat.exists_eq_add_of_le hij
  unfold trainableLenBefore
  rw [List.take_add, trainableWeightSize_append]
  exact Nat.le_add_right _ _

/-- For `i < j` with a trainable weight at index `i`, the offset assigned at
`j` clears the whole region assigned at `i`. -/
lemma trainableLenBefore_gap (ws : List Weight) (i j : Nat) (w : Weight)
    (hij : i < j) (h : ws[i]? = some w) (hw : w.getTrainable = true) :
    trainableLenBefore ws i + w.getDim.getDataLen ≤ trainableLenBefore ws j := by
  have h1 := trainableLenBefore_succ ws i w h
  rw [hw] at h1
  simp only [if_true] at h1
  have h2 := trainableLenBefore_le ws (i + 1) j hij
  omega

/-- The element of `initNodeWeights` at index `i`: a trainable weight is
bound, at the incoming offset plus the trainable length before it, to an
alias of the shared buffer; other weights are initialized privately. -/
lemma initNodeWeights_getElem? (shared : Tensor) (ws : List Weight) :
    ∀ (off i : Nat) (w : Weight), ws[i]? = some w →
      (initNodeWeights shared true ws off)[i]? =
        some (if w.getTrainable then
                w.initializeWith
                  (shared.getSharedDataTensor w.getDim (off + trainableLenBefore ws i))
              else w.initializePrivate) := by
  induction ws with
  | nil => intro off i w h; cases h
  | cons w0 ws ih =>
    intro off i w h
    cases i with
    | zero =>
      obtain rfl : w0 = w := by simpa using h
      unfold initNodeWeights
      by_cases hw : w0.getTrainable
      · rw [if_pos (show (w0.getTrainable && true) = true by simp [hw])]
        simp [hw, trainableLenBefore, trainableWeightSize]
      · rw [if_neg (show ¬(w0.getTrainable && true) = true by simp [hw])]
        simp [hw]
    | succ i =>
      have h' : ws[i]? = some w := by simpa using h
      unfold initNodeWeights
      by_cases hw0 : w0.getTrainable
      · have hlen : trainableLenBefore (w0 :: ws) (i + 1)
            = w0.getDim.getDataLen + trainableLenBefore ws i := by
          unfold trainableLenBefore
          rw [List.take_succ_cons, trainableWeightSize_cons, hw0]
          simp
        rw [if_pos (show (w0.getTrainable && true) = true by simp [hw0])]
        rw [List.getElem?_cons_succ, ih (off + w0.getDim.getDataLen) i w h', hlen]
        rw [Nat.add_assoc]
      · have hlen : trainableLenBefore (w0 :: ws) (i + 1) = trainableLenBefore ws i := by
          unfold trainableLenBefore
          rw [List.take_succ_cons, trainableWeightSize_cons]
          simp [hw0]
        rw [if_neg (show ¬(w0.getTrainable && true) = true by simp [hw0])]
        rw [List.getElem?_cons_succ, ih off i w h', hlen]

/-- Two `Ico` regions with the first ending before the second starts (either
way round) share no index. -/
lemma ico_inter_empty (a b c d : Nat) (h : b ≤ c ∨ d ≤ a) :
    Finset.Ico a b ∩ Finset.Ico c d = ∅ := by
  ext k
  simp only [Finset.mem_inter, Finset.mem_Ico, Finset.not_mem_empty, iff_false, not_and]
  omega

lemma map_bind_getElem {α β : Type} (f : α → β) (o : Option (List α)) (k : Nat) :
    (o.map (fun l => l.map f)).bind (fun l => l[k]?) = (o.bind (fun l => l[k]?)).map f := by
  cases o <;> simp [List.getElem?_map]

/-! ## Claim theorems -/

/-- C1: For every sequence of per-node weight registrations via
`trackWeights` starting from a fresh manager, `max_weight_size` afterwards is
exactly the running maximum over the registered nodes of the per-node
trainable-weight element count — in particular it is never less than any
node's count — and registering nodes with trainable-weight sizes
`[100, 40, 250, 10]` in order yields `max_weight_size = 250` and a shared
gradient arena of exactly 250 elements. -/
theorem trackWeights_max_weight_size_correct (nodes : List (List Weight)) :
    (trackAll nodes).max_weight_size = (nodes.map trainableWeightSize).foldl Nat.max 0 ∧
    (∀ ws ∈ nodes, trainableWeightSize ws ≤ (trackAll nodes).max_weight_size) ∧
    scenarioAManager.max_weight_size = 250 ∧
    scenarioAManager.sharedGrad = Tensor.arena 250 := by
  have hfold : (trackAll nodes).max_weight_size
      = nodes.foldl (fun acc ws => Nat.max acc (trainableWeightSize ws)) 0 :=
    trackAll_max_weight_size nodes Manager.new
  refine ⟨?_, ?_, by decide, by decide⟩
  · rw [hfold, List.foldl_map]
  · intro ws hws
    rw [hfold]
    exact mem_le_foldl_max ws nodes hws 0

/-- Witness for C1 at Scenario A: the fold value and the never-less bound at
the node of size 100. -/
theorem trackWeights_max_weight_size_correct_witness :
    (trackAll scenarioANodes).max_weight_size
        = (scenarioANodes.map trainableWeightSize).foldl Nat.max 0 ∧
    trainableWeightSize [mkW 100] ≤ (trackAll scenarioANodes).max_weight_size :=
  ⟨(trackWeights_max_weight_size_correct scenarioANodes).1,
   (trackWeights_max_weight_size_correct scenarioANodes).2.1 [mkW 100] (by decide)⟩

/-- C2: After `Manager::initialize()` with the gradient memory optimization
enabled, every trainable weight's gradient is bound to an alias of the shared
buffer at the offset given by the trainable length before it *within its own
node* (so the offset restarts at zero for each node and does not depend on
other nodes — which is exactly why weights of different nodes may alias
overlapping regions), and the aliased gradient regions of any two distinct
trainable weights of the same node do not overlap. -/
theorem initializeWeights_same_node_regions
    (m : Manager) (n i j : Nat) (node0 : List Weight) (wi0 wj0 : Weight)
    (hopt : m.enable_gradient_memory_opt = true)
    (hn : m.weights[n]? = some node0)
    (hi : node0[i]? = some wi0) (hj : node0[j]? = some wj0)
    (hti : wi0.getTrainable = true) (htj : wj0.getTrainable = true)
    (hij : i ≠ j) :
    ∃ node wi wj,
      m.initializeWeights.weights[n]? = some node ∧
      node[i]? = some wi ∧ node[j]? = some wj ∧
      wi.grad = m.sharedGrad.getSharedDataTensor wi0.getDim (trainableLenBefore node0 i) ∧
      wj.grad = m.sharedGrad.getSharedDataTensor wj0.getDim (trainableLenBefore node0 j) ∧
      wi.grad.aliasIndices ∩ wj.grad.aliasIndices = ∅ := by
  have hmap : m.initializeWeights.weights[n]?
      = some (initNodeWeights m.sharedGrad m.enable_gradient_memory_opt node0 0) := by
    unfold Manager.initializeWeights
    rw [List.getElem?_map, hn]
    rfl
  rw [hopt] at hmap
  have hwi := initNodeWeights_getElem? m.sharedGrad node0 0 i wi0 hi
  have hwj := initNodeWeights_getElem? m.sharedGrad node0 0 j wj0 hj
  rw [hti] at hwi
  rw [htj] at hwj
  simp only [if_true, Nat.zero_add] at hwi hwj
  refine ⟨_, _, _, hmap, hwi, hwj, rfl, rfl, ?_⟩
  show (m.sharedGrad.getSharedDataTensor wi0.getDim (trainableLenBefore node0 i)).aliasIndices
      ∩ (m.sharedGrad.getSharedDataTensor wj0.getDim (trainableLenBefore node0 j)).aliasIndices
      = ∅
  unfold Tensor.getSharedDataTensor Tensor.aliasIndices
  rcases Nat.lt_or_ge i j with hlt | hge
  · exact ico_inter_empty _ _ _ _
      (Or.inl (trainableLenBefore_gap node0 i j wi0 hlt hi hti))
  · have hlt' : j < i := Nat.lt_of_le_of_ne hge (Ne.symm hij)
    exact ico_inter_empty _ _ _ _
      (Or.inr (trainableLenBefore_gap node0 j i wj0 hlt' hj htj))

/-- Witness for C2: one node with two trainable weights of 2 and 3 elements;
the bound gradients alias offsets 0 and 2 of the 5-element arena and their
regions are disjoint. -/
theorem initializeWeights_same_node_regions_witness :
    ∃ node wi wj,
      (Manager.new.trackWeights [mkW 2, mkW 3]).initializeWeights.weights[0]? = some node ∧
      node[0]? = some wi ∧ node[1]? = some wj ∧
      wi.grad = (Manager.new.trackWeights [mkW 2, mkW 3]).sharedGrad.getSharedDataTensor
        (mkW 2).getDim (trainableLenBefore [mkW 2, mkW 3] 0) ∧
      wj.grad = (Manager.new.trackWeights [mkW 2, mkW 3]).sharedGrad.getSharedDataTensor
        (mkW 3).getDim (trainableLenBefore [mkW 2, mkW 3] 1) ∧
      wi.grad.aliasIndices ∩ wj.grad.aliasIndices = ∅ :=
  initializeWeights_same_node_regions (Manager.new.trackWeights [mkW 2, mkW 3])
    0 0 1 [mkW 2, mkW 3] (mkW 2) (mkW 3)
    (by decide) (by decide) (by decide) (by decide) (by decide) (by decide) (by decide)

/-- C3: In Scenario B (two nodes tracked in order, node1's output feeding
node2's input, both trainable, shapes `4x1x1x8`), after
`initializeInOuts(true)` the shared derivative arena holds
`max(32, 32) = 32` elements and both tracked pairs' derivative tensors are
aliases into that 32-element arena, each node's first binding at offset 0. -/
theorem scenarioB_derivative_arena_and_offsets :
    scenarioB.max_derivative_size = 32 ∧
    scenarioB.sharedDeriv = Tensor.arena 32 ∧
    scenarioB.in_outs = [[vgB1], [vgB2]] ∧
    vgB1.grad = Tensor.alias 32 0 dimB ∧
    vgB2.grad = Tensor.alias 32 0 dimB := by
  decide

/-- C4: `Manager::setBatchSize(b)` first rescales `max_derivative_size` by
the integer formula old-size / old-batch * new-batch (the old batch read from
the first tracked pair), then propagates the new batch to every tracked pair
as a pure dimension-metadata update (name, trainable flag, alias parent and
offset are all preserved); in Scenario C (`setBatchSize(8)` after Scenario B)
the derivative arena's logical size becomes 64 while each tracked pair keeps
its arena offset and only the batch entry of its shapes changes. -/
theorem setBatchSize_rescales_then_propagates
    (m : Manager) (b : Nat) (vg : VarGrad) (l : List VarGrad) (rest : List (List VarGrad))
    (h : m.in_outs = (vg :: l) :: rest) :
    (m.setBatchSize b).max_derivative_size = m.max_derivative_size / vg.getDim.batch * b ∧
    (∀ (i k : Nat) (x : VarGrad), (m.in_outs[i]?.bind (fun io => io[k]?)) = some x →
      ((m.setBatchSize b).in_outs[i]?.bind (fun io => io[k]?))
        = some { x with dim := x.dim.setBatch b,
                        var := x.var.setBatch b,
                        grad := x.grad.setBatch b }) ∧
    scenarioC.max_derivative_size = 64 ∧
    scenarioC.in_outs = [[vgC1], [vgC2]] := by
  refine ⟨?_, ?_, by decide, by decide⟩
  · show (Manager.setBatchSize m b).max_derivative_size = _
    unfold Manager.setBatchSize
    rw [h]
  · intro i k x hx
    have hio : (m.setBatchSize b).in_outs
        = m.in_outs.map (fun io => io.map (fun vg => vg.setBatchSize b)) := rfl
    rw [hio, List.getElem?_map, map_bind_getElem, hx]
    rfl

/-- Witness for C4 at Scenario B with batch 8: the rescale formula and the
propagation to node2's pair. -/
theorem setBatchSize_rescales_then_propagates_witness :
    (scenarioB.setBatchSize 8).max_derivative_size
        = scenarioB.max_derivative_size / vgB1.getDim.batch * 8 ∧
    ((scenarioB.setBatchSize 8).in_outs[1]?.bind (fun io => io[0]?))
        = some { vgB2 with dim := vgB2.dim.setBatch 8,
                           var := vgB2.var.setBatch 8,
                           grad := vgB2.grad.setBatch 8 } := by
  have H := setBatchSize_rescales_then_propagates scenarioB 8 vgB1 [] [[vgB2]] (by decide)
  exact ⟨H.1, H.2.1 1 0 vgB2 (by decide)⟩

/-- Only-metadata batch rewrites are idempotent on a tracked pair. -/
lemma VarGrad.setBatchSize_idem (vg : VarGrad) (b : Nat) :
    (vg.setBatchSize b).setBatchSize b = vg.setBatchSize b := by
  unfold VarGrad.setBatchSize
  cases vg with
  | mk dim trainable nm var grad =>
    cases var <;> cases grad <;> rfl

/-- C5: calling `Manager::setBatchSize(b)` twice in succession with the same
`b` leaves every tracked pair — hence every tracked variable and gradient
tensor shape — identical to calling it once. -/
theorem setBatchSize_idempotent_on_tracked_pairs (m : Manager) (b : Nat) :
    ((m.setBatchSize b).setBatchSize b).in_outs = (m.setBatchSize b).in_outs := by
  show (Manager.setBatchSize (Manager.setBatchSize m b) b).in_outs = _
  unfold Manager.setBatchSize
  simp only [List.map_map]
  apply List.map_congr_left
  intro io _
  simp only [Function.comp_def, List.map_map]
  apply List.map_congr_left
  intro vg _
  exact VarGrad.setBatchSize_idem vg b

/-- C6 (evaluation of the code at the failing input): tracking one trainable
`4x1x1x8` in/out pair raises `max_derivative_size` to 32; `Manager::reset()`
then clears the tracked weights and in/outs and zeroes `max_weight_size`, but
leaves `max_derivative_size` at 32 instead of zeroing it. -/
theorem reset_leaves_max_derivative_size_nonzero :
    ((Manager.new.TrackLayerInOuts "layer0" [dimB] true).reset).weights = [] ∧
    ((Manager.new.TrackLayerInOuts "layer0" [dimB] true).reset).in_outs = [] ∧
    ((Manager.new.TrackLayerInOuts "layer0" [dimB] true).reset).max_weight_size = 0 ∧
    ((Manager.new.TrackLayerInOuts "layer0" [dimB] true).reset).max_derivative_size = 32 := by
  decide

/-- C7: when no tracked entry's first generated pair carries the name
`layer_name ++ ":InOut0"`, `untrackLayerInOuts` is a no-op: the whole manager
state (tracked weights, tracked in/outs, maxima, flags) is unchanged and no
error is raised (the operation is total). -/
theorem untrackLayerInOuts_unknown_name_noop (m : Manager) (layer_name : String)
    (h : m.tracksFirstName (layer_name ++ ":InOut" ++ toString (0 : Nat)) = false) :
    m.untrackLayerInOuts layer_name = m := by
  have haux : ∀ xs : List (List VarGrad),
      (xs.any (fun l =>
        match l with
        | [] => false
        | v :: _ => v.getName == layer_name ++ ":InOut" ++ toString (0 : Nat)) = false) →
      untrackFirst (layer_name ++ ":InOut" ++ toString (0 : Nat)) xs = xs := by
    intro xs
    induction xs with
    | nil => intro _; rfl
    | cons l ls ih =>
      intro hall
      simp only [List.any_cons, Bool.or_eq_false_iff] at hall
      cases l with
      | nil =>
        show [] :: untrackFirst _ ls = [] :: ls
        rw [ih hall.2]
      | cons v vs =>
        have hv : ¬v.getName = layer_name ++ ":InOut" ++ toString (0 : Nat) := by
          have := hall.1
          simpa using this
        show (if v.getName = _ then ls else (v :: vs) :: untrackFirst _ ls) = (v :: vs) :: ls
        rw [if_neg hv, ih hall.2]
  show Manager.untrackLayerInOuts m layer_name = m
  simp only [Manager.untrackLayerInOuts]
  rw [haux m.in_outs h]

/-- Witness for C7: untracking the never-registered name `ghost` on a manager
tracking only `node1` changes nothing. -/
theorem untrackLayerInOuts_unknown_name_noop_witness :
    (Manager.new.TrackLayerInOuts "node1" [dimB] true).untrackLayerInOuts "ghost"
      = Manager.new.TrackLayerInOuts "node1" [dimB] true :=
  untrackLayerInOuts_unknown_name_noop _ "ghost" (by decide)

/-- C8 counterexample: with the property list `[flatten=true, normalization=]`
the call fails with `ML_ERROR_INVALID_PARAMETER` (second string carries an
empty value), yet the node's state is not the prior state: `flatten` was
already applied.  Property application is therefore not all-or-nothing. -/
theorem setProperty_failure_changes_state_cex :
    (nodeCE.setProperty ["flatten=true", "normalization="]).1 = ErrorCode.invalidParameter ∧
    (nodeCE.setProperty ["flatten=true", "normalization="]).2 ≠ nodeCE := by
  decide

/-- C8 amended: `LayerNode::setProperty` applies properties one at a time in
list order; a failure partway through returns an error but keeps the
properties already processed applied (no rollback).  Concretely, for every
node, `[flatten=true, normalization=]` fails with invalid-parameter while
leaving `flatten` set. -/
theorem setProperty_failure_keeps_applied_prefix (node : LayerNode) :
    node.setProperty ["flatten=true", "normalization="]
      = (ErrorCode.invalidParameter, { node with flatten := true }) := rfl

/-- C9: invoking the backward-derivative operation on an input (graph source)
layer always fails with the `not supported` error at call time, for every
layer state: it never silently succeeds (no `Except.ok` state is ever
produced), so no state is corrupted. -/
theorem inputLayer_calcDerivative_not_supported (l : InputLayer) :
    l.calcDerivative
      = Except.error
          (LayerError.notSupported "calcDerivative for input layer is not supported") := rfl

/-- C10: registering a weight through the single-weight entry point
`trackWeight` appends it as its own singleton node but leaves
`max_weight_size` (and `max_derivative_size`) unchanged even when the weight
is trainable — only the `trackWeights` path updates the running maximum, so a
`trackWeight`-registered weight is never accounted for in the shared gradient
arena's size. -/
theorem trackWeight_leaves_max_weight_size (m : Manager) (w : Weight)
    (h : w.getTrainable = true) :
    (m.trackWeight w).max_weight_size = m.max_weight_size ∧
    (m.trackWeight w).max_derivative_size = m.max_derivative_size ∧
    (m.trackWeight w).weights = m.weights ++ [[w]] :=
  ⟨rfl, rfl, rfl⟩

/-- Witness for C10: a trainable 5-element weight tracked on a fresh manager
leaves both maxima at zero. -/
theorem trackWeight_leaves_max_weight_size_witness :
    (Manager.new.trackWeight (mkW 5)).max_weight_size = Manager.new.max_weight_size ∧
    (Manager.new.trackWeight (mkW 5)).max_derivative_size = Manager.new.max_derivative_size ∧
    (Manager.new.trackWeight (mkW 5)).weights = Manager.new.weights ++ [[mkW 5]] :=
  trackWeight_leaves_max_weight_size Manager.new (mkW 5) (by decide)

end NNT
